import Mathlib

/-!
Verification of the UTXO key-manager and transaction-translation layer of
the edge-currency-plugins repository.

The embedding models, faithfully to the TypeScript source:
  * `src/common/utxobased/keymanager/keymanager.ts`
  * `src/common/utxobased/db/Models/ProcessorTransaction.ts`

External collaborator libraries (bip32, bitcoinjs-lib payments/Psbt,
base58check / bech32 / cashaddr codecs, altcoin-js transaction parsing)
are modelled as explicit parameters or as byte-level functions that follow
the collaborators' documented behaviour; the spec declares those primitives
assumed-correct, so theorems that depend on them take their round-trip
behaviour as hypotheses.  Hex strings of the source are modelled as byte
lists (`List Nat`); address text stays an opaque `String` handled by the
codec parameters.  TypeScript `throw` is modelled with `Except String`.
-/

namespace EdgePlugins

/-- `NetworkEnum` from keymanager.ts. -/
inductive NetworkEnum where
  | mainnet
  | testnet
  deriving DecidableEq, Repr

/-- `BIP43PurposeTypeEnum` from keymanager.ts. -/
inductive BIP43PurposeTypeEnum where
  | legacy
  | segwit
  | wrappedSegwit
  deriving DecidableEq, Repr

/-- `AddressTypeEnum` from keymanager.ts. -/
inductive AddressTypeEnum where
  | p2pkh
  | p2sh
  | p2wpkhp2sh
  | p2wpkh
  | p2wsh
  | p2wshp2sh
  | cashaddrP2PKH
  | cashaddrP2SH
  deriving DecidableEq, Repr

/-- `TransactionInputTypeEnum` from keymanager.ts. -/
inductive TransactionInputTypeEnum where
  | legacy
  | segwit
  deriving DecidableEq, Repr

/-- `TxInput` from keymanager.ts: optional fields become `Option`. -/
structure TxInput where
  type : TransactionInputTypeEnum
  prevTxid : String
  index : Nat
  prevTx : Option String
  prevScriptPubkey : Option String
  redeemScript : Option String
  value : Option Nat
  deriving DecidableEq, Repr

/-- `TxOutput` from keymanager.ts. -/
structure TxOutput where
  scriptPubkey : String
  amount : Nat
  deriving DecidableEq, Repr

/-- `CreateTxArgs` from keymanager.ts. -/
structure CreateTxArgs where
  network : NetworkEnum
  inputs : List TxInput
  outputs : List TxOutput
  rbf : Bool
  deriving DecidableEq, Repr

/-- One input added to the bitcoinjs `Psbt` object by `createTx`
(the argument record passed to `psbt.addInput`). -/
structure PsbtInput where
  hash : String
  index : Nat
  sequence : Nat
  nonWitnessUtxo : Option String
  witnessUtxo : Option (String × Nat)
  redeemScript : Option String
  deriving DecidableEq, Repr

/-- One output added to the bitcoinjs `Psbt` object by `createTx`. -/
structure PsbtOutput where
  script : String
  value : Nat
  deriving DecidableEq, Repr

/-- The draft state accumulated in the bitcoinjs `Psbt` by `createTx`
(the source returns its base64 serialization; we keep the state itself). -/
structure Psbt where
  inputs : List PsbtInput
  outputs : List PsbtOutput
  deriving DecidableEq, Repr

/-- The input-validation loop of `createTx` (keymanager.ts lines 645-696):
iterates the inputs in order, throws on the first input missing a required
field, otherwise adds the corresponding `addInput` record. -/
def createTxAddInputs (sequence : Nat) : List TxInput → Except String (List PsbtInput)
  | [] => .ok []
  | input :: rest =>
    match input.type with
    | TransactionInputTypeEnum.legacy =>
      match input.prevTx with
      | none =>
        .error "legacy inputs require the full previous transaction to be passed"
      | some prevTx =>
        match createTxAddInputs sequence rest with
        | .error e => .error e
        | .ok tail =>
          .ok ({ hash := input.prevTxid, index := input.index, sequence := sequence,
                 nonWitnessUtxo := some prevTx, witnessUtxo := none,
                 redeemScript := none } :: tail)
    | TransactionInputTypeEnum.segwit =>
      match input.prevScriptPubkey, input.value with
      | some prevScriptPubkey, some value =>
        match input.redeemScript with
        | none =>
          match createTxAddInputs sequence rest with
          | .error e => .error e
          | .ok tail =>
            .ok ({ hash := input.prevTxid, index := input.index, sequence := sequence,
                   nonWitnessUtxo := none, witnessUtxo := some (prevScriptPubkey, value),
                   redeemScript := none } :: tail)
        | some redeemScript =>
          match createTxAddInputs sequence rest with
          | .error e => .error e
          | .ok tail =>
            .ok ({ hash := input.prevTxid, index := input.index, sequence := sequence,
                   nonWitnessUtxo := none, witnessUtxo := some (prevScriptPubkey, value),
                   redeemScript := some redeemScript } :: tail)
      | _, _ =>
        .error "segwit inputs require a script pubkey and value to be passed"

/-- `createTx` from keymanager.ts (lines 639-704).  The sequence number is
`0xffffffff`, decremented by 2 when `rbf` is set; inputs are validated and
added in order, then outputs are appended in order. -/
def createTx (createTxArgs : CreateTxArgs) : Except String Psbt :=
  let sequence : Nat := if createTxArgs.rbf then 0xffffffff - 2 else 0xffffffff
  match createTxAddInputs sequence createTxArgs.inputs with
  | .error e => .error e
  | .ok inputs =>
    .ok { inputs := inputs,
          outputs := createTxArgs.outputs.map
            (fun o => { script := o.scriptPubkey, value := o.amount }) }

/-- Characterization (spec side) of an input rejected by `createTx`:
legacy inputs need `prevTx`; segwit inputs need `prevScriptPubkey` and
`value`.  (No condition on `redeemScript`.) -/
def missingInputData (input : TxInput) : Bool :=
  match input.type with
  | TransactionInputTypeEnum.legacy => input.prevTx.isNone
  | TransactionInputTypeEnum.segwit =>
    input.prevScriptPubkey.isNone || input.value.isNone

theorem createTxAddInputs_isOk (sequence : Nat) (inputs : List TxInput) :
    (createTxAddInputs sequence inputs).isOk =
      inputs.all (fun i => !missingInputData i) := by
  induction inputs with
  | nil => rfl
  | cons input rest ih =>
    rw [List.all_cons, ← ih]
    cases htype : input.type with
    | legacy =>
      cases hprev : input.prevTx with
      | none =>
        simp [createTxAddInputs, htype, hprev, missingInputData, Except.isOk,
          Except.toBool]
      | some prevTx =>
        cases hrest : createTxAddInputs sequence rest with
        | error e =>
          simp [createTxAddInputs, htype, hprev, hrest, missingInputData,
            Except.isOk, Except.toBool]
        | ok tail =>
          simp [createTxAddInputs, htype, hprev, hrest, missingInputData,
            Except.isOk, Except.toBool]
    | segwit =>
      cases hspk : input.prevScriptPubkey with
      | none =>
        simp [createTxAddInputs, htype, hspk, missingInputData, Except.isOk,
          Except.toBool]
      | some spk =>
        cases hval : input.value with
        | none =>
          simp [createTxAddInputs, htype, hspk, hval, missingInputData, Except.isOk,
            Except.toBool]
        | some v =>
          cases hrs : input.redeemScript with
          | none =>
            cases hrest : createTxAddInputs sequence rest with
            | error e =>
              simp [createTxAddInputs, htype, hspk, hval, hrs, hrest,
                missingInputData, Except.isOk, Except.toBool]
            | ok tail =>
              simp [createTxAddInputs, htype, hspk, hval, hrs, hrest,
                missingInputData, Except.isOk, Except.toBool]
          | some rs =>
            cases hrest : createTxAddInputs sequence rest with
            | error e =>
              simp [createTxAddInputs, htype, hspk, hval, hrs, hrest,
                missingInputData, Except.isOk, Except.toBool]
            | ok tail =>
              simp [createTxAddInputs, htype, hspk, hval, hrs, hrest,
                missingInputData, Except.isOk, Except.toBool]

theorem createTxAddInputs_seq (sequence : Nat) :
    ∀ (inputs : List TxInput) (l : List PsbtInput),
      createTxAddInputs sequence inputs = .ok l → ∀ pi ∈ l, pi.sequence = sequence := by
  intro inputs
  induction inputs with
  | nil =>
    intro l h pi hm
    simp [createTxAddInputs] at h
    subst h
    simp at hm
  | cons input rest ih =>
    intro l h pi hm
    cases htype : input.type with
    | legacy =>
      cases hprev : input.prevTx with
      | none => simp [createTxAddInputs, htype, hprev] at h
      | some prevTx =>
        cases hrest : createTxAddInputs sequence rest with
        | error e => simp [createTxAddInputs, htype, hprev, hrest] at h
        | ok tail =>
          simp [createTxAddInputs, htype, hprev, hrest] at h
          subst h
          rcases List.mem_cons.mp hm with h1 | h2
          · subst h1; rfl
          · exact ih tail hrest pi h2
    | segwit =>
      cases hspk : input.prevScriptPubkey with
      | none => simp [createTxAddInputs, htype, hspk] at h
      | some spk =>
        cases hval : input.value with
        | none => simp [createTxAddInputs, htype, hspk, hval] at h
        | some v =>
          cases hrs : input.redeemScript with
          | none =>
            cases hrest : createTxAddInputs sequence rest with
            | error e => simp [createTxAddInputs, htype, hspk, hval, hrs, hrest] at h
            | ok tail =>
              simp [createTxAddInputs, htype, hspk, hval, hrs, hrest] at h
              subst h
              rcases List.mem_cons.mp hm with h1 | h2
              · subst h1; rfl
              · exact ih tail hrest pi h2
          | some rs =>
            cases hrest : createTxAddInputs sequence rest with
            | error e => simp [createTxAddInputs, htype, hspk, hval, hrs, hrest] at h
            | ok tail =>
              simp [createTxAddInputs, htype, hspk, hval, hrs, hrest] at h
              subst h
              rcases List.mem_cons.mp hm with h1 | h2
              · subst h1; rfl
              · exact ih tail hrest pi h2

theorem createTxAddInputs_fields (sequence : Nat) :
    ∀ (inputs : List TxInput) (l : List PsbtInput),
      createTxAddInputs sequence inputs = .ok l →
      l.length = inputs.length ∧
      ∀ (i : Nat) (pi : PsbtInput) (ai : TxInput),
        l[i]? = some pi → inputs[i]? = some ai →
        pi.hash = ai.prevTxid ∧ pi.index = ai.index := by
  intro inputs
  induction inputs with
  | nil =>
    intro l h
    simp [createTxAddInputs] at h
    subst h
    exact ⟨rfl, by intro i pi ai hp _; simp at hp⟩
  | cons input rest ih =>
    intro l h
    cases htype : input.type with
    | legacy =>
      cases hprev : input.prevTx with
      | none => simp [createTxAddInputs, htype, hprev] at h
      | some prevTx =>
        cases hrest : createTxAddInputs sequence rest with
        | error e => simp [createTxAddInputs, htype, hprev, hrest] at h
        | ok tail =>
          simp [createTxAddInputs, htype, hprev, hrest] at h
          subst h
          obtain ⟨hlen, hfields⟩ := ih tail hrest
          refine ⟨by simp [hlen], ?_⟩
          intro i pi ai hp ha
          cases i with
          | zero =>
            simp at hp ha
            subst hp; subst ha
            exact ⟨rfl, rfl⟩
          | succ j =>
            simp at hp ha
            exact hfields j pi ai hp ha
    | segwit =>
      cases hspk : input.prevScriptPubkey with
      | none => simp [createTxAddInputs, htype, hspk] at h
      | some spk =>
        cases hval : input.value with
        | none => simp [createTxAddInputs, htype, hspk, hval] at h
        | some v =>
          cases hrs : input.redeemScript with
          | none =>
            cases hrest : createTxAddInputs sequence rest with
            | error e => simp [createTxAddInputs, htype, hspk, hval, hrs, hrest] at h
            | ok tail =>
              simp [createTxAddInputs, htype, hspk, hval, hrs, hrest] at h
              subst h
              obtain ⟨hlen, hfields⟩ := ih tail hrest
              refine ⟨by simp [hlen], ?_⟩
              intro i pi ai hp ha
              cases i with
              | zero =>
                simp at hp ha
                subst hp; subst ha
                exact ⟨rfl, rfl⟩
              | succ j =>
                simp at hp ha
                exact hfields j pi ai hp ha
          | some rs =>
            cases hrest : createTxAddInputs sequence rest with
            | error e => simp [createTxAddInputs, htype, hspk, hval, hrs, hrest] at h
            | ok tail =>
              simp [createTxAddInputs, htype, hspk, hval, hrs, hrest] at h
              subst h
              obtain ⟨hlen, hfields⟩ := ih tail hrest
              refine ⟨by simp [hlen], ?_⟩
              intro i pi ai hp ha
              cases i with
              | zero =>
                simp at hp ha
                subst hp; subst ha
                exact ⟨rfl, rfl⟩
              | succ j =>
                simp at hp ha
                exact hfields j pi ai hp ha

/-- `(createTx args).isOk` agrees with the validation loop. -/
theorem createTx_isOk (args : CreateTxArgs) :
    (createTx args).isOk =
      (createTxAddInputs (if args.rbf then 0xffffffff - 2 else 0xffffffff)
        args.inputs).isOk := by
  simp only [createTx]
  cases hx : createTxAddInputs (if args.rbf then 0xffffffff - 2 else 0xffffffff)
      args.inputs <;> simp [hx, Except.isOk, Except.toBool]

/-- C2 (amended): every input added by `createTx` carries the same sequence
number: `0xffffffff` when `rbf` is false and `0xffffffff - 2 = 0xfffffffd`
(maximum with only bit 1 cleared) when `rbf` is true. -/
theorem createTx_sequence (args : CreateTxArgs) (psbt : Psbt) (pi : PsbtInput)
    (h : createTx args = .ok psbt) (hm : pi ∈ psbt.inputs) :
    pi.sequence = if args.rbf then 0xfffffffd else 0xffffffff := by
  simp only [createTx] at h
  cases hrest : createTxAddInputs (if args.rbf then 0xffffffff - 2 else 0xffffffff)
      args.inputs with
  | error e => rw [hrest] at h; exact absurd h (by simp)
  | ok l =>
    rw [hrest] at h
    have hps : Psbt.mk l (args.outputs.map
        (fun o => PsbtOutput.mk o.scriptPubkey o.amount)) = psbt := by
      simpa using h
    subst hps
    have := createTxAddInputs_seq _ args.inputs l hrest pi (by simpa using hm)
    rw [this]

/-- Concrete segwit input used in the C2 examples. -/
def c2Input : TxInput :=
  { type := TransactionInputTypeEnum.segwit, prevTxid := "aa", index := 0,
    prevTx := none, prevScriptPubkey := some "0014ab", redeemScript := none,
    value := some 1000 }

/-- `createTx` arguments with RBF requested. -/
def c2Args : CreateTxArgs :=
  { network := NetworkEnum.mainnet, inputs := [c2Input], outputs := [], rbf := true }

/-- `createTx` arguments without RBF. -/
def c2ArgsNoRbf : CreateTxArgs :=
  { network := NetworkEnum.mainnet, inputs := [c2Input], outputs := [], rbf := false }

/-- The psbt input record `createTx` produces for `c2Input` without RBF. -/
def c2HeadInput : PsbtInput :=
  { hash := "aa", index := 0, sequence := 0xffffffff, nonWitnessUtxo := none,
    witnessUtxo := some ("0014ab", 1000), redeemScript := none }

/-- The draft `createTx` produces for `c2ArgsNoRbf`. -/
def c2PsbtNoRbf : Psbt := { inputs := [c2HeadInput], outputs := [] }

/-- C2 counterexample: with `rbf` requested, the sequence number `createTx`
assigns is `0xfffffffd` (maximum minus two), not `0xfffffffc` (maximum with
the two low bits cleared) as the claim states. -/
theorem createTx_rbf_sequence_cex :
    (createTx c2Args).map (fun p => p.inputs.map (fun pi => pi.sequence)) =
      .ok [0xfffffffd] ∧ (0xfffffffd : Nat) ≠ 0xfffffffc :=
  ⟨rfl, by decide⟩

theorem createTx_sequence_witness :
    createTx c2ArgsNoRbf = .ok c2PsbtNoRbf ∧ c2HeadInput.sequence = 0xffffffff := by
  refine ⟨rfl, ?_⟩
  have := createTx_sequence c2ArgsNoRbf c2PsbtNoRbf c2HeadInput rfl
    (by simp [c2PsbtNoRbf])
  simpa [c2ArgsNoRbf] using this

/-- C3 (amended): `createTx` validates each input by kind and throws, without
returning a draft, when a legacy input lacks `prevTx` or a segwit input lacks
`prevScriptPubkey` or `value` (with the message naming the requirement); a
segwit input without `redeemScript` is NOT rejected - it is added as a plain
witness input.  When validation passes, the draft preserves the
caller-supplied input and output order. -/
theorem createTx_input_validation (args : CreateTxArgs) :
    ((createTx args).isOk = true ↔ ∀ input ∈ args.inputs, missingInputData input = false)
    ∧ (∀ psbt, createTx args = .ok psbt →
        psbt.inputs.length = args.inputs.length ∧
        (∀ (i : Nat) (pi : PsbtInput) (ai : TxInput),
          psbt.inputs[i]? = some pi → args.inputs[i]? = some ai →
          pi.hash = ai.prevTxid ∧ pi.index = ai.index) ∧
        psbt.outputs = args.outputs.map
          (fun o => { script := o.scriptPubkey, value := o.amount }))
    ∧ (∀ input, args.inputs = [input] → input.type = TransactionInputTypeEnum.legacy →
        input.prevTx = none →
        createTx args = .error "legacy inputs require the full previous transaction to be passed")
    ∧ (∀ input, args.inputs = [input] → input.type = TransactionInputTypeEnum.segwit →
        (input.prevScriptPubkey = none ∨ input.value = none) →
        createTx args = .error "segwit inputs require a script pubkey and value to be passed") := by
  refine ⟨?_, ?_, ?_, ?_⟩
  · rw [createTx_isOk, createTxAddInputs_isOk, List.all_eq_true]
    constructor
    · intro h input hm
      have := h input hm
      simpa using this
    · intro h input hm
      simpa using h input hm
  · intro psbt h
    simp only [createTx] at h
    cases hrest : createTxAddInputs (if args.rbf then 0xffffffff - 2 else 0xffffffff)
        args.inputs with
    | error e => rw [hrest] at h; exact absurd h (by simp)
    | ok l =>
      rw [hrest] at h
      have hps : Psbt.mk l (args.outputs.map
          (fun o => PsbtOutput.mk o.scriptPubkey o.amount)) = psbt := by
        simpa using h
      subst hps
      obtain ⟨hlen, hfields⟩ := createTxAddInputs_fields _ args.inputs l hrest
      exact ⟨hlen, hfields, rfl⟩
  · intro input hin htype hprev
    simp only [createTx, hin]
    simp [createTxAddInputs, htype, hprev]
  · intro input hin htype hmiss
    simp only [createTx, hin]
    rcases hmiss with hspk | hval
    · simp [createTxAddInputs, htype, hspk]
    · cases hspk : input.prevScriptPubkey with
      | none => simp [createTxAddInputs, htype, hspk]
      | some spk => simp [createTxAddInputs, htype, hspk, hval]

/-- Concrete segwit input that spends a P2SH (script-hash-wrapped witness)
output but carries no `redeemScript`. -/
def c3Input : TxInput :=
  { type := TransactionInputTypeEnum.segwit, prevTxid := "bb", index := 1,
    prevTx := none,
    prevScriptPubkey := some "a914ffffffffffffffffffffffffffffffffffffffff87",
    redeemScript := none, value := some 5000 }

/-- `createTx` arguments for the C3 counterexample. -/
def c3Args : CreateTxArgs :=
  { network := NetworkEnum.mainnet, inputs := [c3Input], outputs := [], rbf := false }

/-- C3 counterexample: a segwit input whose previous locking script is a
script-hash (P2SH) script and whose `redeemScript` is missing is accepted by
`createTx`; the claimed failure for a wrapped-witness input missing its
redeem script does not exist in the code. -/
theorem createTx_missing_redeemScript_cex :
    (createTx c3Args).isOk = true ∧ c3Input.redeemScript = none :=
  ⟨rfl, rfl⟩

theorem createTx_input_validation_witness :
    (createTx c3Args).isOk = true ∧
      missingInputData c3Input = false := by
  refine ⟨?_, by decide⟩
  exact (createTx_input_validation c3Args).1.mpr
    (by intro input hm; simp [c3Args] at hm; subst hm; decide)

/-- The `Bip32` interface from keymanager.ts; its fields are named `public`
and `private` in the source, which are Lean keywords. -/
structure Bip32Pair where
  pub : Nat
  priv : Nat
  deriving DecidableEq, Repr

/-- `CoinPrefixes` from coin.ts as consumed by keymanager.ts (coin.ts is not
part of the excerpt; optionality of each field is pinned by the undefined
checks in `bip32NetworkFromCoinPrefix`).  `messagePrefix` appears as
`messagePfx`. -/
structure CoinPrefixes where
  messagePfx : String
  wif : Nat
  legacyXPub : Nat
  legacyXPriv : Nat
  segwitXPub : Option Nat
  segwitXPriv : Option Nat
  wrappedSegwitXPub : Option Nat
  wrappedSegwitXPriv : Option Nat
  pubkeyHash : Nat
  scriptHash : Nat
  bech32 : Option String
  deriving DecidableEq, Repr

/-- `BitcoinJSNetwork` from keymanager.ts. -/
structure BitcoinJSNetwork where
  wif : Nat
  bip32 : Bip32Pair
  messagePfx : String
  bech32 : String
  pubKeyHash : Nat
  scriptHash : Nat
  deriving DecidableEq, Repr

/-- `bip32NetworkFromCoinPrefix` from keymanager.ts (lines 178-229): selects
the extended-key version-byte pair for the requested purpose, throwing when
the coin prefixes do not register that purpose. -/
def bip32NetworkFromCoinPrefixes (sigType : BIP43PurposeTypeEnum)
    (coinPrefixes : CoinPrefixes) (_segwit : Bool) : Except String BitcoinJSNetwork :=
  match sigType with
  | BIP43PurposeTypeEnum.segwit =>
    match coinPrefixes.segwitXPub, coinPrefixes.segwitXPriv with
    | some xpub, some xpriv =>
      .ok { messagePfx := coinPrefixes.messagePfx, wif := coinPrefixes.wif,
            bip32 := { pub := xpub, priv := xpriv },
            bech32 := coinPrefixes.bech32.getD "bc",
            pubKeyHash := coinPrefixes.pubkeyHash,
            scriptHash := coinPrefixes.scriptHash }
    | _, _ => .error "segwit xpub prefix is undefined"
  | BIP43PurposeTypeEnum.wrappedSegwit =>
    match coinPrefixes.wrappedSegwitXPub, coinPrefixes.wrappedSegwitXPriv with
    | some xpub, some xpriv =>
      .ok { messagePfx := coinPrefixes.messagePfx, wif := coinPrefixes.wif,
            bip32 := { pub := xpub, priv := xpriv },
            bech32 := coinPrefixes.bech32.getD "bc",
            pubKeyHash := coinPrefixes.pubkeyHash,
            scriptHash := coinPrefixes.scriptHash }
    | _, _ => .error "wrapped segwit xpub prefix is undefined"
  | BIP43PurposeTypeEnum.legacy =>
    .ok { messagePfx := coinPrefixes.messagePfx, wif := coinPrefixes.wif,
          bip32 := { pub := coinPrefixes.legacyXPub, priv := coinPrefixes.legacyXPriv },
          bech32 := coinPrefixes.bech32.getD "bc",
          pubKeyHash := coinPrefixes.pubkeyHash,
          scriptHash := coinPrefixes.scriptHash }

/-- `Coin` from coin.ts as consumed by `bip32NetworkFromCoin`. -/
structure Coin where
  mainnetConstants : CoinPrefixes
  testnetConstants : CoinPrefixes
  segwit : Bool
  deriving DecidableEq, Repr

/-- `bip32NetworkFromCoin` from keymanager.ts (lines 231-245).  The coin
table lookup `getCoinFromString` (coinmapper.ts, not in the excerpt) is a
parameter. -/
def bip32NetworkFromCoin (getCoinFromString : String → Except String Coin)
    (networkType : NetworkEnum) (coinString : String)
    (sigType : BIP43PurposeTypeEnum) : Except String BitcoinJSNetwork :=
  match getCoinFromString coinString with
  | .error e => .error e
  | .ok coin =>
    if networkType = NetworkEnum.testnet then
      bip32NetworkFromCoinPrefixes sigType coin.testnetConstants coin.segwit
    else
      bip32NetworkFromCoinPrefixes sigType coin.mainnetConstants coin.segwit

/-- A bip32 tree node as exposed by the external bip32 library: compressed
public key plus optional private key, both as byte lists. -/
structure BIP32Node where
  publicKey : List Nat
  privateKey : Option (List Nat)
  deriving DecidableEq, Repr

/-- The operations the keymanager uses from the external bip32 library
(assumed-correct collaborator; kept abstract). -/
structure BIP32Lib where
  fromBase58 : String → BitcoinJSNetwork → BIP32Node
  derive : BIP32Node → Nat → BIP32Node
  neutered : BIP32Node → BIP32Node
  toBase58 : BIP32Node → String

/-- `XPrivToXPubArgs` from keymanager.ts. -/
structure XPrivToXPubArgs where
  xpriv : String
  network : NetworkEnum
  type : BIP43PurposeTypeEnum
  coin : String
  deriving DecidableEq, Repr

/-- `XPubToPubkeyArgs` from keymanager.ts. -/
structure XPubToPubkeyArgs where
  xpub : String
  network : NetworkEnum
  type : BIP43PurposeTypeEnum
  bip44ChangeIndex : Nat
  bip44AddressIndex : Nat
  coin : String
  deriving DecidableEq, Repr

/-- `XPrivToPrivateKeyArgs` from keymanager.ts. -/
structure XPrivToPrivateKeyArgs where
  xpriv : String
  network : NetworkEnum
  type : BIP43PurposeTypeEnum
  bip44ChangeIndex : Nat
  bip44AddressIndex : Nat
  coin : String
  deriving DecidableEq, Repr

/-- `xprivToXPub` from keymanager.ts (lines 297-305). -/
def xprivToXPub (lib : BIP32Lib) (getCoinFromString : String → Except String Coin)
    (args : XPrivToXPubArgs) : Except String String :=
  match bip32NetworkFromCoin getCoinFromString args.network args.coin args.type with
  | .error e => .error e
  | .ok network =>
    .ok (lib.toBase58 (lib.neutered (lib.fromBase58 args.xpriv network)))

/-- `xpubToPubkey` from keymanager.ts (lines 309-321): derives at the
supplied change and address indices. -/
def xpubToPubkey (lib : BIP32Lib) (getCoinFromString : String → Except String Coin)
    (args : XPubToPubkeyArgs) : Except String (List Nat) :=
  match bip32NetworkFromCoin getCoinFromString args.network args.coin args.type with
  | .error e => .error e
  | .ok network =>
    .ok ((lib.derive (lib.derive (lib.fromBase58 args.xpub network)
      args.bip44ChangeIndex) args.bip44AddressIndex).publicKey)

/-- `xprivToPrivateKey` from keymanager.ts (lines 578-595): NOTE - the
source derives `node.derive(0).derive(0)`, with the literal constants 0 and
0, not the supplied `bip44ChangeIndex`/`bip44AddressIndex`. -/
def xprivToPrivateKey (lib : BIP32Lib) (getCoinFromString : String → Except String Coin)
    (args : XPrivToPrivateKeyArgs) : Except String (List Nat) :=
  match bip32NetworkFromCoin getCoinFromString args.network args.coin args.type with
  | .error e => .error e
  | .ok network =>
    match (lib.derive (lib.derive (lib.fromBase58 args.xpriv network) 0) 0).privateKey with
    | none => .error "Failed to generate private key from xpriv"
    | some privateKey => .ok privateKey

/-- C4: for coin prefixes lacking the segwit (resp. wrapped-segwit)
version-byte pair, requesting that purpose fails with the
unsupported-purpose error (and operations such as `xprivToXPub` fail the
same way), never falling back to the legacy bytes; when the pair is
registered, exactly that pair is selected. -/
theorem bip32Network_purpose_version_bytes (p : CoinPrefixes) (sw : Bool) :
    ((p.segwitXPub = none ∨ p.segwitXPriv = none) →
      bip32NetworkFromCoinPrefixes BIP43PurposeTypeEnum.segwit p sw =
        .error "segwit xpub prefix is undefined")
    ∧ (∀ a b, p.segwitXPub = some a → p.segwitXPriv = some b →
        ∃ nw, bip32NetworkFromCoinPrefixes BIP43PurposeTypeEnum.segwit p sw = .ok nw ∧
          nw.bip32 = { pub := a, priv := b })
    ∧ ((p.wrappedSegwitXPub = none ∨ p.wrappedSegwitXPriv = none) →
        bip32NetworkFromCoinPrefixes BIP43PurposeTypeEnum.wrappedSegwit p sw =
          .error "wrapped segwit xpub prefix is undefined")
    ∧ (∀ a b, p.wrappedSegwitXPub = some a → p.wrappedSegwitXPriv = some b →
        ∃ nw, bip32NetworkFromCoinPrefixes BIP43PurposeTypeEnum.wrappedSegwit p sw = .ok nw ∧
          nw.bip32 = { pub := a, priv := b })
    ∧ (∀ nw, bip32NetworkFromCoinPrefixes BIP43PurposeTypeEnum.segwit p sw = .ok nw →
        p.segwitXPub = some nw.bip32.pub ∧ p.segwitXPriv = some nw.bip32.priv)
    ∧ (∀ nw, bip32NetworkFromCoinPrefixes BIP43PurposeTypeEnum.wrappedSegwit p sw = .ok nw →
        p.wrappedSegwitXPub = some nw.bip32.pub ∧ p.wrappedSegwitXPriv = some nw.bip32.priv)
    ∧ (∀ (lib : BIP32Lib) (getCoin : String → Except String Coin)
        (args : XPrivToXPubArgs) (coin : Coin),
        getCoin args.coin = .ok coin → args.type = BIP43PurposeTypeEnum.segwit →
        args.network = NetworkEnum.mainnet → coin.mainnetConstants = p →
        p.segwitXPub = none →
        xprivToXPub lib getCoin args = .error "segwit xpub prefix is undefined") := by
  refine ⟨?_, ?_, ?_, ?_, ?_, ?_, ?_⟩
  · intro h
    rcases h with h | h <;>
      cases hx : p.segwitXPub <;> cases hy : p.segwitXPriv <;>
        simp_all [bip32NetworkFromCoinPrefixes]
  · intro a b ha hb
    refine ⟨BitcoinJSNetwork.mk p.wif (Bip32Pair.mk a b) p.messagePfx
      (p.bech32.getD "bc") p.pubkeyHash p.scriptHash, ?_, rfl⟩
    simp [bip32NetworkFromCoinPrefixes, ha, hb]
  · intro h
    rcases h with h | h <;>
      cases hx : p.wrappedSegwitXPub <;> cases hy : p.wrappedSegwitXPriv <;>
        simp_all [bip32NetworkFromCoinPrefixes]
  · intro a b ha hb
    refine ⟨BitcoinJSNetwork.mk p.wif (Bip32Pair.mk a b) p.messagePfx
      (p.bech32.getD "bc") p.pubkeyHash p.scriptHash, ?_, rfl⟩
    simp [bip32NetworkFromCoinPrefixes, ha, hb]
  · intro nw h
    cases hx : p.segwitXPub with
    | none => simp [bip32NetworkFromCoinPrefixes, hx] at h
    | some a =>
      cases hy : p.segwitXPriv with
      | none => simp [bip32NetworkFromCoinPrefixes, hx, hy] at h
      | some b =>
        simp [bip32NetworkFromCoinPrefixes, hx, hy] at h
        subst h
        exact ⟨rfl, rfl⟩
  · intro nw h
    cases hx : p.wrappedSegwitXPub with
    | none => simp [bip32NetworkFromCoinPrefixes, hx] at h
    | some a =>
      cases hy : p.wrappedSegwitXPriv with
      | none => simp [bip32NetworkFromCoinPrefixes, hx, hy] at h
      | some b =>
        simp [bip32NetworkFromCoinPrefixes, hx, hy] at h
        subst h
        exact ⟨rfl, rfl⟩
  · intro lib getCoin args coin hcoin htype hnet hmain hnone
    unfold xprivToXPub bip32NetworkFromCoin
    rw [hcoin, htype, hnet]
    simp only [hmain]
    have : bip32NetworkFromCoinPrefixes BIP43PurposeTypeEnum.segwit p coin.segwit =
        .error "segwit xpub prefix is undefined" := by
      cases hy : p.segwitXPriv <;> simp [bip32NetworkFromCoinPrefixes, hnone, hy]
    simp [this]

/-- Coin prefixes registering all three purposes (fixture). -/
def fullPrefixSet : CoinPrefixes :=
  { messagePfx := "msg", wif := 128, legacyXPub := 0x0488b21e,
    legacyXPriv := 0x0488ade4, segwitXPub := some 0x04b24746,
    segwitXPriv := some 0x04b2430c, wrappedSegwitXPub := some 0x049d7cb2,
    wrappedSegwitXPriv := some 0x049d7878, pubkeyHash := 0, scriptHash := 5,
    bech32 := some "bc" }

/-- Coin prefixes registering only the legacy purpose (fixture). -/
def legacyOnlyPrefixSet : CoinPrefixes :=
  { messagePfx := "msg", wif := 128, legacyXPub := 0x0488b21e,
    legacyXPriv := 0x0488ade4, segwitXPub := none, segwitXPriv := none,
    wrappedSegwitXPub := none, wrappedSegwitXPriv := none, pubkeyHash := 0,
    scriptHash := 5, bech32 := none }

theorem bip32Network_purpose_version_bytes_witness :
    bip32NetworkFromCoinPrefixes BIP43PurposeTypeEnum.segwit legacyOnlyPrefixSet true =
      .error "segwit xpub prefix is undefined" :=
  (bip32Network_purpose_version_bytes legacyOnlyPrefixSet true).1 (Or.inl rfl)

/-- Toy bip32 library whose derive operation records the derivation path in
the key bytes (fixture used to exhibit concrete derivations). -/
def pathRecordingLib : BIP32Lib :=
  { fromBase58 := fun _ _ => { publicKey := [], privateKey := some [] },
    derive := fun n i =>
      { publicKey := n.publicKey ++ [i],
        privateKey := n.privateKey.map (fun l => l ++ [i]) },
    neutered := fun n => { publicKey := n.publicKey, privateKey := none },
    toBase58 := fun _ => "xkey" }

/-- Coin-table fixture: a single registered coin named `toy`. -/
def toyGetCoin : String → Except String Coin := fun s =>
  if s = "toy" then
    .ok { mainnetConstants := fullPrefixSet, testnetConstants := fullPrefixSet,
          segwit := true }
  else .error "Could not find the coin requested"

/-- C1: `xpubToPubkey` derives
`node.derive(bip44ChangeIndex).derive(bip44AddressIndex)` as claimed, but
`xprivToPrivateKey` derives `node.derive(0).derive(0)`, ignoring the
supplied indices: its result is invariant under changing them, and with the
path-recording library the key it returns at indices (1, 2) is the key of
path 0/0, not of path 1/2. -/
theorem leafKey_derivation_steps :
    (∀ (lib : BIP32Lib) (getCoin : String → Except String Coin)
      (args : XPubToPubkeyArgs) (nw : BitcoinJSNetwork),
      bip32NetworkFromCoin getCoin args.network args.coin args.type = .ok nw →
      xpubToPubkey lib getCoin args =
        .ok ((lib.derive (lib.derive (lib.fromBase58 args.xpub nw)
          args.bip44ChangeIndex) args.bip44AddressIndex).publicKey))
    ∧ (∀ (lib : BIP32Lib) (getCoin : String → Except String Coin)
        (args : XPrivToPrivateKeyArgs) (c a : Nat),
        xprivToPrivateKey lib getCoin
          { args with bip44ChangeIndex := c, bip44AddressIndex := a } =
        xprivToPrivateKey lib getCoin
          { args with bip44ChangeIndex := 0, bip44AddressIndex := 0 })
    ∧ (xprivToPrivateKey pathRecordingLib toyGetCoin
        { xpriv := "xk", network := NetworkEnum.mainnet,
          type := BIP43PurposeTypeEnum.legacy, bip44ChangeIndex := 1,
          bip44AddressIndex := 2, coin := "toy" } = .ok [0, 0]
      ∧ (pathRecordingLib.derive (pathRecordingLib.derive
          (pathRecordingLib.fromBase58 "xk"
            { wif := 128, bip32 := { pub := 0x0488b21e, priv := 0x0488ade4 },
              messagePfx := "msg", bech32 := "bc", pubKeyHash := 0,
              scriptHash := 5 }) 1) 2).privateKey = some [1, 2]
      ∧ ([0, 0] : List Nat) ≠ [1, 2]) := by
  refine ⟨?_, ?_, rfl, rfl, by decide⟩
  · intro lib getCoin args nw h
    unfold xpubToPubkey
    rw [h]
  · intro lib getCoin args c a
    unfold xprivToPrivateKey
    rfl

theorem leafKey_derivation_steps_witness :
    xpubToPubkey pathRecordingLib toyGetCoin
      { xpub := "xp", network := NetworkEnum.mainnet,
        type := BIP43PurposeTypeEnum.legacy, bip44ChangeIndex := 1,
        bip44AddressIndex := 2, coin := "toy" } = .ok [1, 2] :=
  leafKey_derivation_steps.1 pathRecordingLib toyGetCoin
    { xpub := "xp", network := NetworkEnum.mainnet,
      type := BIP43PurposeTypeEnum.legacy, bip44ChangeIndex := 1,
      bip44AddressIndex := 2, coin := "toy" }
    { wif := 128, bip32 := { pub := 0x0488b21e, priv := 0x0488ade4 },
      messagePfx := "msg", bech32 := "bc", pubKeyHash := 0, scriptHash := 5 }
    rfl

/-- The Base58Check codec of the external collaborator library
(version byte, payload) <-> address text; kept abstract. -/
structure Base58CheckCodec where
  enc : Nat → List Nat → String
  dec : String → Option (Nat × List Nat)

/-- The bech32 codec of the external collaborator library
(hrp, witness version, program) <-> address text; kept abstract. -/
structure Bech32Codec where
  enc : String → Nat → List Nat → String
  dec : String → Option (String × Nat × List Nat)

/-- `cashaddrTypeEnum` from bitcoincashUtils/cashAddress.ts. -/
inductive CashaddrTypeEnum where
  | pubkeyhash
  | scripthash
  deriving DecidableEq, Repr

/-- `cashaddrPrefixEnum` from bitcoincashUtils/cashAddress.ts. -/
inductive CashaddrPrefixEnum where
  | mainnet
  | testnet
  deriving DecidableEq, Repr

/-- The cashaddr codec (`hashToCashAddress` / `cashAddressToHash`) from
bitcoincashUtils/cashAddress.ts, which is not part of the excerpt; kept
abstract. -/
structure CashaddrCodec where
  hashToCashAddress : List Nat → CashaddrTypeEnum → CashaddrPrefixEnum → String
  cashAddressToHash : String → Option (CashaddrTypeEnum × List Nat)

/-- The three text codecs the translator consumes. -/
structure CodecSet where
  b58 : Base58CheckCodec
  bech : Bech32Codec
  cash : CashaddrCodec

/-- P2PKH locking script: `DUP HASH160 <20B> EQUALVERIFY CHECKSIG`. -/
def p2pkhScript (h : List Nat) : List Nat := 0x76 :: 0xa9 :: 0x14 :: (h ++ [0x88, 0xac])

/-- P2SH locking script: `HASH160 <20B> EQUAL`. -/
def p2shScript (h : List Nat) : List Nat := 0xa9 :: 0x14 :: (h ++ [0x87])

/-- P2WPKH locking script: version 0, 20-byte program. -/
def p2wpkhScript (h : List Nat) : List Nat := 0x00 :: 0x14 :: h

/-- P2WSH locking script: version 0, 32-byte program. -/
def p2wshScript (h : List Nat) : List Nat := 0x00 :: 0x20 :: h

/-- bitcoinjs `p2pkh({output}).hash`: template check and hash extraction. -/
def p2pkhOutputToHash (s : List Nat) : Option (List Nat) :=
  match s with
  | 0x76 :: 0xa9 :: 0x14 :: rest =>
    if rest.length = 22 ∧ rest.drop 20 = [0x88, 0xac] then some (rest.take 20) else none
  | _ => none

/-- bitcoinjs `p2sh({output}).hash`. -/
def p2shOutputToHash (s : List Nat) : Option (List Nat) :=
  match s with
  | 0xa9 :: 0x14 :: rest =>
    if rest.length = 21 ∧ rest.drop 20 = [0x87] then some (rest.take 20) else none
  | _ => none

/-- bitcoinjs `p2wpkh({output}).hash`. -/
def p2wpkhOutputToHash (s : List Nat) : Option (List Nat) :=
  match s with
  | 0x00 :: 0x14 :: rest => if rest.length = 20 then some rest else none
  | _ => none

/-- bitcoinjs `p2wsh({output}).hash`. -/
def p2wshOutputToHash (s : List Nat) : Option (List Nat) :=
  match s with
  | 0x00 :: 0x20 :: rest => if rest.length = 32 then some rest else none
  | _ => none

/-- bitcoinjs `p2pkh({address, network}).output`: decode Base58Check, check
the version byte against the network and the hash length, emit the
template. -/
def p2pkhAddrToOutput (b58 : Base58CheckCodec) (network : BitcoinJSNetwork)
    (address : String) : Option (List Nat) :=
  match b58.dec address with
  | some (v, h) =>
    if v = network.pubKeyHash ∧ h.length = 20 then some (p2pkhScript h) else none
  | none => none

/-- bitcoinjs `p2sh({address, network}).output`. -/
def p2shAddrToOutput (b58 : Base58CheckCodec) (network : BitcoinJSNetwork)
    (address : String) : Option (List Nat) :=
  match b58.dec address with
  | some (v, h) =>
    if v = network.scriptHash ∧ h.length = 20 then some (p2shScript h) else none
  | none => none

/-- bitcoinjs `p2wpkh({address, network}).output`. -/
def p2wpkhAddrToOutput (bech : Bech32Codec) (network : BitcoinJSNetwork)
    (address : String) : Option (List Nat) :=
  match bech.dec address with
  | some (hrp, ver, prog) =>
    if hrp = network.bech32 ∧ ver = 0 ∧ prog.length = 20 then some (p2wpkhScript prog)
    else none
  | none => none

/-- bitcoinjs `p2wsh({address, network}).output`. -/
def p2wshAddrToOutput (bech : Bech32Codec) (network : BitcoinJSNetwork)
    (address : String) : Option (List Nat) :=
  match bech.dec address with
  | some (hrp, ver, prog) =>
    if hrp = network.bech32 ∧ ver = 0 ∧ prog.length = 32 then some (p2wshScript prog)
    else none
  | none => none

/-- `guessAddressTypeFromAddress` from keymanager.ts (lines 247-280): a
given `addressType` is returned as is; otherwise the decoders are attempted
in the fixed order p2pkh, p2sh, p2wsh, p2wpkh, cashaddr. -/
def guessAddressTypeFromAddress (cs : CodecSet) (address : String)
    (network : BitcoinJSNetwork) (addressType : Option AddressTypeEnum) :
    Except String AddressTypeEnum :=
  match addressType with
  | some t => .ok t
  | none =>
    if (p2pkhAddrToOutput cs.b58 network address).isSome then .ok AddressTypeEnum.p2pkh
    else if (p2shAddrToOutput cs.b58 network address).isSome then .ok AddressTypeEnum.p2sh
    else if (p2wshAddrToOutput cs.bech network address).isSome then .ok AddressTypeEnum.p2wsh
    else if (p2wpkhAddrToOutput cs.bech network address).isSome then .ok AddressTypeEnum.p2wpkh
    else
      match cs.cash.cashAddressToHash address with
      | some (t, _) =>
        if t = CashaddrTypeEnum.pubkeyhash then .ok AddressTypeEnum.cashaddrP2PKH
        else .ok AddressTypeEnum.cashaddrP2SH
      | none => .error ("Could not determine address type of " ++ address)

/-- `AddressToScriptPubkeyArgs` from keymanager.ts. -/
structure AddressToScriptPubkeyArgs where
  address : String
  network : NetworkEnum
  addressType : Option AddressTypeEnum
  coin : String

/-- `ScriptPubkeyToAddressArgs` from keymanager.ts. -/
structure ScriptPubkeyToAddressArgs where
  scriptPubkey : List Nat
  addressType : AddressTypeEnum
  network : NetworkEnum
  coin : String

/-- `ScriptHashToScriptPubkeyArgs` from keymanager.ts. -/
structure ScriptHashToScriptPubkeyArgs where
  scriptHash : List Nat
  addressType : AddressTypeEnum
  network : NetworkEnum
  coin : String

/-- `ScriptPubkeyToScriptHashArgs` from keymanager.ts. -/
structure ScriptPubkeyToScriptHashArgs where
  scriptPubkey : List Nat
  addressType : AddressTypeEnum
  network : NetworkEnum
  coin : String

/-- `scriptHashToScriptPubkey` from keymanager.ts (lines 462-495). -/
def scriptHashToScriptPubkey (getCoin : String → Except String Coin)
    (args : ScriptHashToScriptPubkeyArgs) : Except String (List Nat) :=
  match bip32NetworkFromCoin getCoin args.network args.coin BIP43PurposeTypeEnum.legacy with
  | .error e => .error e
  | .ok _network =>
    match args.addressType with
    | AddressTypeEnum.p2pkh =>
      if args.scriptHash.length = 20 then .ok (p2pkhScript args.scriptHash)
      else .error "failed converting scriptPubkey to address"
    | AddressTypeEnum.p2sh | AddressTypeEnum.p2wpkhp2sh =>
      if args.scriptHash.length = 20 then .ok (p2shScript args.scriptHash)
      else .error "failed converting scriptPubkey to address"
    | AddressTypeEnum.p2wpkh =>
      if args.scriptHash.length = 20 then .ok (p2wpkhScript args.scriptHash)
      else .error "failed converting scriptPubkey to address"
    | AddressTypeEnum.p2wsh =>
      if args.scriptHash.length = 32 then .ok (p2wshScript args.scriptHash)
      else .error "failed converting scriptPubkey to address"
    | _ => .error "invalid address type in address to script pubkey"

/-- `scriptPubkeyToScriptHash` from keymanager.ts (lines 497-532). -/
def scriptPubkeyToScriptHash (getCoin : String → Except String Coin)
    (args : ScriptPubkeyToScriptHashArgs) : Except String (List Nat) :=
  match bip32NetworkFromCoin getCoin args.network args.coin BIP43PurposeTypeEnum.legacy with
  | .error e => .error e
  | .ok _network =>
    match args.addressType with
    | AddressTypeEnum.p2pkh | AddressTypeEnum.cashaddrP2PKH =>
      match p2pkhOutputToHash args.scriptPubkey with
      | some h => .ok h
      | none => .error "failed converting scriptPubkey to address"
    | AddressTypeEnum.p2sh | AddressTypeEnum.cashaddrP2SH | AddressTypeEnum.p2wpkhp2sh =>
      match p2shOutputToHash args.scriptPubkey with
      | some h => .ok h
      | none => .error "failed converting scriptPubkey to address"
    | AddressTypeEnum.p2wpkh =>
      match p2wpkhOutputToHash args.scriptPubkey with
      | some h => .ok h
      | none => .error "failed converting scriptPubkey to address"
    | AddressTypeEnum.p2wsh =>
      match p2wshOutputToHash args.scriptPubkey with
      | some h => .ok h
      | none => .error "failed converting scriptPubkey to address"
    | AddressTypeEnum.p2wshp2sh => .error "invalid address type in address to script pubkey"

/-- `addressToScriptPubkey` from keymanager.ts (lines 323-379). -/
def addressToScriptPubkey (cs : CodecSet) (getCoin : String → Except String Coin)
    (args : AddressToScriptPubkeyArgs) : Except String (List Nat) :=
  match bip32NetworkFromCoin getCoin args.network args.coin BIP43PurposeTypeEnum.legacy with
  | .error e => .error e
  | .ok network =>
    match guessAddressTypeFromAddress cs args.address network args.addressType with
    | .error e => .error e
    | .ok addressType =>
      match addressType with
      | AddressTypeEnum.p2pkh =>
        match p2pkhAddrToOutput cs.b58 network args.address with
        | some s => .ok s
        | none => .error "failed converting address to scriptPubkey"
      | AddressTypeEnum.p2sh | AddressTypeEnum.p2wpkhp2sh =>
        match p2shAddrToOutput cs.b58 network args.address with
        | some s => .ok s
        | none => .error "failed converting address to scriptPubkey"
      | AddressTypeEnum.p2wpkh =>
        match p2wpkhAddrToOutput cs.bech network args.address with
        | some s => .ok s
        | none => .error "failed converting address to scriptPubkey"
      | AddressTypeEnum.p2wsh =>
        match p2wshAddrToOutput cs.bech network args.address with
        | some s => .ok s
        | none => .error "failed converting address to scriptPubkey"
      | AddressTypeEnum.cashaddrP2PKH =>
        match cs.cash.cashAddressToHash args.address with
        | some (_, h) =>
          scriptHashToScriptPubkey getCoin
            { scriptHash := h, addressType := AddressTypeEnum.p2pkh,
              network := args.network, coin := args.coin }
        | none => .error "failed converting address to scriptPubkey"
      | AddressTypeEnum.cashaddrP2SH =>
        match cs.cash.cashAddressToHash args.address with
        | some (_, h) =>
          scriptHashToScriptPubkey getCoin
            { scriptHash := h, addressType := AddressTypeEnum.p2sh,
              network := args.network, coin := args.coin }
        | none => .error "failed converting address to scriptPubkey"
      | AddressTypeEnum.p2wshp2sh =>
        .error "invalid address type in address to script pubkey"

/-- `scriptPubkeyToAddress` from keymanager.ts (lines 381-460). -/
def scriptPubkeyToAddress (cs : CodecSet) (getCoin : String → Except String Coin)
    (args : ScriptPubkeyToAddressArgs) : Except String String :=
  match bip32NetworkFromCoin getCoin args.network args.coin BIP43PurposeTypeEnum.legacy with
  | .error e => .error e
  | .ok network =>
    match args.addressType with
    | AddressTypeEnum.p2pkh =>
      match p2pkhOutputToHash args.scriptPubkey with
      | some h => .ok (cs.b58.enc network.pubKeyHash h)
      | none => .error "failed converting scriptPubkey to address"
    | AddressTypeEnum.p2sh | AddressTypeEnum.p2wpkhp2sh =>
      match p2shOutputToHash args.scriptPubkey with
      | some h => .ok (cs.b58.enc network.scriptHash h)
      | none => .error "failed converting scriptPubkey to address"
    | AddressTypeEnum.p2wpkh =>
      match p2wpkhOutputToHash args.scriptPubkey with
      | some h => .ok (cs.bech.enc network.bech32 0 h)
      | none => .error "failed converting scriptPubkey to address"
    | AddressTypeEnum.p2wsh =>
      match p2wshOutputToHash args.scriptPubkey with
      | some h => .ok (cs.bech.enc network.bech32 0 h)
      | none => .error "failed converting scriptPubkey to address"
    | AddressTypeEnum.cashaddrP2PKH =>
      match scriptPubkeyToScriptHash getCoin
        { scriptPubkey := args.scriptPubkey, addressType := AddressTypeEnum.p2pkh,
          network := args.network, coin := args.coin } with
      | .error e => .error e
      | .ok h =>
        if args.network = NetworkEnum.testnet then
          .ok (cs.cash.hashToCashAddress h CashaddrTypeEnum.pubkeyhash
            CashaddrPrefixEnum.testnet)
        else
          .ok (cs.cash.hashToCashAddress h CashaddrTypeEnum.pubkeyhash
            CashaddrPrefixEnum.mainnet)
    | AddressTypeEnum.cashaddrP2SH =>
      match scriptPubkeyToScriptHash getCoin
        { scriptPubkey := args.scriptPubkey, addressType := AddressTypeEnum.p2sh,
          network := args.network, coin := args.coin } with
      | .error e => .error e
      | .ok h =>
        if args.network = NetworkEnum.testnet then
          .ok (cs.cash.hashToCashAddress h CashaddrTypeEnum.scripthash
            CashaddrPrefixEnum.testnet)
        else
          .ok (cs.cash.hashToCashAddress h CashaddrTypeEnum.scripthash
            CashaddrPrefixEnum.mainnet)
    | AddressTypeEnum.p2wshp2sh =>
      .error "invalid address type in address to script pubkey"

theorem p2pkhOutputToHash_script (h : List Nat) (hl : h.length = 20) :
    p2pkhOutputToHash (p2pkhScript h) = some h := by
  have hd : (h ++ [0x88, 0xac]).drop 20 = [0x88, 0xac] := by
    rw [← hl]; exact List.drop_left h _
  have ht : (h ++ [0x88, 0xac]).take 20 = h := by
    rw [← hl]; exact List.take_left h _
  simp [p2pkhOutputToHash, p2pkhScript, hl, hd, ht]

theorem p2shOutputToHash_script (h : List Nat) (hl : h.length = 20) :
    p2shOutputToHash (p2shScript h) = some h := by
  have hd : (h ++ [0x87]).drop 20 = [0x87] := by
    rw [← hl]; exact List.drop_left h _
  have ht : (h ++ [0x87]).take 20 = h := by
    rw [← hl]; exact List.take_left h _
  simp [p2shOutputToHash, p2shScript, hl, hd, ht]

theorem p2wpkhOutputToHash_script (h : List Nat) (hl : h.length = 20) :
    p2wpkhOutputToHash (p2wpkhScript h) = some h := by
  simp [p2wpkhOutputToHash, p2wpkhScript, hl]

theorem p2wshOutputToHash_script (h : List Nat) (hl : h.length = 32) :
    p2wshOutputToHash (p2wshScript h) = some h := by
  simp [p2wshOutputToHash, p2wshScript, hl]

/-- C5: with `addressType` omitted, `guessAddressTypeFromAddress` attempts
the decoders in the fixed order p2pkh, p2sh, p2wsh, p2wpkh, cashaddr and
returns the first success, failing with the unrecognized-address error when
all decoders fail. -/
theorem guessAddressType_priority (cs : CodecSet) (address : String)
    (network : BitcoinJSNetwork) :
    ((p2pkhAddrToOutput cs.b58 network address).isSome = true →
      guessAddressTypeFromAddress cs address network none = .ok AddressTypeEnum.p2pkh)
    ∧ ((p2pkhAddrToOutput cs.b58 network address).isSome = false →
       (p2shAddrToOutput cs.b58 network address).isSome = true →
      guessAddressTypeFromAddress cs address network none = .ok AddressTypeEnum.p2sh)
    ∧ ((p2pkhAddrToOutput cs.b58 network address).isSome = false →
       (p2shAddrToOutput cs.b58 network address).isSome = false →
       (p2wshAddrToOutput cs.bech network address).isSome = true →
      guessAddressTypeFromAddress cs address network none = .ok AddressTypeEnum.p2wsh)
    ∧ ((p2pkhAddrToOutput cs.b58 network address).isSome = false →
       (p2shAddrToOutput cs.b58 network address).isSome = false →
       (p2wshAddrToOutput cs.bech network address).isSome = false →
       (p2wpkhAddrToOutput cs.bech network address).isSome = true →
      guessAddressTypeFromAddress cs address network none = .ok AddressTypeEnum.p2wpkh)
    ∧ (∀ (t : CashaddrTypeEnum) (h : List Nat),
       (p2pkhAddrToOutput cs.b58 network address).isSome = false →
       (p2shAddrToOutput cs.b58 network address).isSome = false →
       (p2wshAddrToOutput cs.bech network address).isSome = false →
       (p2wpkhAddrToOutput cs.bech network address).isSome = false →
       cs.cash.cashAddressToHash address = some (t, h) →
      guessAddressTypeFromAddress cs address network none =
        .ok (if t = CashaddrTypeEnum.pubkeyhash then AddressTypeEnum.cashaddrP2PKH
             else AddressTypeEnum.cashaddrP2SH))
    ∧ ((p2pkhAddrToOutput cs.b58 network address).isSome = false →
       (p2shAddrToOutput cs.b58 network address).isSome = false →
       (p2wshAddrToOutput cs.bech network address).isSome = false →
       (p2wpkhAddrToOutput cs.bech network address).isSome = false →
       cs.cash.cashAddressToHash address = none →
      guessAddressTypeFromAddress cs address network none =
        .error ("Could not determine address type of " ++ address))
    ∧ (∀ t : AddressTypeEnum,
      guessAddressTypeFromAddress cs address network (some t) = .ok t) := by
  refine ⟨?_, ?_, ?_, ?_, ?_, ?_, ?_⟩
  · intro h1; simp [guessAddressTypeFromAddress, h1]
  · intro h1 h2; simp [guessAddressTypeFromAddress, h1, h2]
  · intro h1 h2 h3; simp [guessAddressTypeFromAddress, h1, h2, h3]
  · intro h1 h2 h3 h4; simp [guessAddressTypeFromAddress, h1, h2, h3, h4]
  · intro t h h1 h2 h3 h4 hc
    cases t <;> simp [guessAddressTypeFromAddress, h1, h2, h3, h4, hc]
  · intro h1 h2 h3 h4 hc
    simp [guessAddressTypeFromAddress, h1, h2, h3, h4, hc]
  · intro t; rfl

/-- 20-byte hash fixture. -/
def testHash20 : List Nat := List.replicate 20 7

/-- 32-byte hash fixture. -/
def testHash32 : List Nat := List.replicate 32 9

/-- Toy Base58Check codec fixture: a handful of fixed codewords, consistent
on them with its decoder. -/
def toyB58 : Base58CheckCodec :=
  { enc := fun v h =>
      if v = 0 ∧ h = testHash20 then "P"
      else if v = 5 ∧ h = testHash20 then "S" else "X",
    dec := fun s =>
      if s = "P" then some (0, testHash20)
      else if s = "S" then some (5, testHash20)
      else none }

/-- Toy bech32 codec fixture. -/
def toyBech : Bech32Codec :=
  { enc := fun hrp v h =>
      if hrp = "bc" ∧ v = 0 ∧ h = testHash20 then "W"
      else if hrp = "bc" ∧ v = 0 ∧ h = testHash32 then "V" else "X",
    dec := fun s =>
      if s = "W" then some ("bc", 0, testHash20)
      else if s = "V" then some ("bc", 0, testHash32)
      else none }

/-- Toy cashaddr codec fixture. -/
def toyCash : CashaddrCodec :=
  { hashToCashAddress := fun h t p =>
      if h = testHash20 ∧ t = CashaddrTypeEnum.pubkeyhash ∧
          p = CashaddrPrefixEnum.mainnet then "CP"
      else if h = testHash20 ∧ t = CashaddrTypeEnum.scripthash ∧
          p = CashaddrPrefixEnum.mainnet then "CS"
      else "X",
    cashAddressToHash := fun s =>
      if s = "CP" then some (CashaddrTypeEnum.pubkeyhash, testHash20)
      else if s = "CS" then some (CashaddrTypeEnum.scripthash, testHash20)
      else none }

/-- Toy codec set fixture. -/
def toyCodecs : CodecSet := { b58 := toyB58, bech := toyBech, cash := toyCash }

/-- The network record `bip32NetworkFromCoin` resolves for the `toy` coin
on mainnet under the legacy purpose. -/
def toyNetwork : BitcoinJSNetwork :=
  { wif := 128, bip32 := { pub := 0x0488b21e, priv := 0x0488ade4 },
    messagePfx := "msg", bech32 := "bc", pubKeyHash := 0, scriptHash := 5 }

theorem guessAddressType_priority_witness :
    guessAddressTypeFromAddress toyCodecs "P" toyNetwork none =
      .ok AddressTypeEnum.p2pkh :=
  (guessAddressType_priority toyCodecs "P" toyNetwork).1 rfl

/-- Selects the cashaddr text prefix for a network, as the two branches in
`scriptPubkeyToAddress` do. -/
def cashaddrNetworkOf : NetworkEnum → CashaddrPrefixEnum
  | NetworkEnum.mainnet => CashaddrPrefixEnum.mainnet
  | NetworkEnum.testnet => CashaddrPrefixEnum.testnet

/-- A valid address of a given type (spec side): the text decodes under the
relevant codec to a correctly sized hash carrying the network's version data,
and the codec re-encodes that hash to the same text. -/
def ValidAddressForType (cs : CodecSet) (nw : BitcoinJSNetwork)
    (netEnum : NetworkEnum) : AddressTypeEnum → String → Prop
  | AddressTypeEnum.p2pkh, a => ∃ h : List Nat, h.length = 20 ∧
      cs.b58.dec a = some (nw.pubKeyHash, h) ∧ cs.b58.enc nw.pubKeyHash h = a
  | AddressTypeEnum.p2sh, a => ∃ h : List Nat, h.length = 20 ∧
      cs.b58.dec a = some (nw.scriptHash, h) ∧ cs.b58.enc nw.scriptHash h = a
  | AddressTypeEnum.p2wpkhp2sh, a => ∃ h : List Nat, h.length = 20 ∧
      cs.b58.dec a = some (nw.scriptHash, h) ∧ cs.b58.enc nw.scriptHash h = a
  | AddressTypeEnum.p2wpkh, a => ∃ h : List Nat, h.length = 20 ∧
      cs.bech.dec a = some (nw.bech32, 0, h) ∧ cs.bech.enc nw.bech32 0 h = a
  | AddressTypeEnum.p2wsh, a => ∃ h : List Nat, h.length = 32 ∧
      cs.bech.dec a = some (nw.bech32, 0, h) ∧ cs.bech.enc nw.bech32 0 h = a
  | AddressTypeEnum.cashaddrP2PKH, a => ∃ h : List Nat, h.length = 20 ∧
      cs.cash.cashAddressToHash a = some (CashaddrTypeEnum.pubkeyhash, h) ∧
      cs.cash.hashToCashAddress h CashaddrTypeEnum.pubkeyhash
        (cashaddrNetworkOf netEnum) = a
  | AddressTypeEnum.cashaddrP2SH, a => ∃ h : List Nat, h.length = 20 ∧
      cs.cash.cashAddressToHash a = some (CashaddrTypeEnum.scripthash, h) ∧
      cs.cash.hashToCashAddress h CashaddrTypeEnum.scripthash
        (cashaddrNetworkOf netEnum) = a
  | AddressTypeEnum.p2wshp2sh, _ => False

/-- C6 (amended): for every address type except `p2wshp2sh` (which both
conversion directions reject as an invalid address type), converting a valid
address of that type to its locking script and back yields the original
text, given that the underlying text codecs are consistent at that
address. -/
theorem address_script_round_trip (cs : CodecSet)
    (getCoin : String → Except String Coin) (netEnum : NetworkEnum)
    (coinStr : String) (t : AddressTypeEnum) (a : String)
    (nw : BitcoinJSNetwork) (hne : t ≠ AddressTypeEnum.p2wshp2sh)
    (hnw : bip32NetworkFromCoin getCoin netEnum coinStr
      BIP43PurposeTypeEnum.legacy = .ok nw)
    (hva : ValidAddressForType cs nw netEnum t a) :
    ∃ s, addressToScriptPubkey cs getCoin
        { address := a, network := netEnum, addressType := some t,
          coin := coinStr } = .ok s
      ∧ scriptPubkeyToAddress cs getCoin
          { scriptPubkey := s, addressType := t, network := netEnum,
            coin := coinStr } = .ok a := by
  cases t with
  | p2wshp2sh => exact absurd rfl hne
  | p2pkh =>
    obtain ⟨h, hl, hdec, henc⟩ := hva
    refine ⟨p2pkhScript h, ?_, ?_⟩
    · simp [addressToScriptPubkey, hnw, guessAddressTypeFromAddress,
        p2pkhAddrToOutput, hdec, hl]
    · simp [scriptPubkeyToAddress, hnw, p2pkhOutputToHash_script h hl, henc]
  | p2sh =>
    obtain ⟨h, hl, hdec, henc⟩ := hva
    refine ⟨p2shScript h, ?_, ?_⟩
    · simp [addressToScriptPubkey, hnw, guessAddressTypeFromAddress,
        p2shAddrToOutput, hdec, hl]
    · simp [scriptPubkeyToAddress, hnw, p2shOutputToHash_script h hl, henc]
  | p2wpkhp2sh =>
    obtain ⟨h, hl, hdec, henc⟩ := hva
    refine ⟨p2shScript h, ?_, ?_⟩
    · simp [addressToScriptPubkey, hnw, guessAddressTypeFromAddress,
        p2shAddrToOutput, hdec, hl]
    · simp [scriptPubkeyToAddress, hnw, p2shOutputToHash_script h hl, henc]
  | p2wpkh =>
    obtain ⟨h, hl, hdec, henc⟩ := hva
    refine ⟨p2wpkhScript h, ?_, ?_⟩
    · simp [addressToScriptPubkey, hnw, guessAddressTypeFromAddress,
        p2wpkhAddrToOutput, hdec, hl]
    · simp [scriptPubkeyToAddress, hnw, p2wpkhOutputToHash_script h hl, henc]
  | p2wsh =>
    obtain ⟨h, hl, hdec, henc⟩ := hva
    refine ⟨p2wshScript h, ?_, ?_⟩
    · simp [addressToScriptPubkey, hnw, guessAddressTypeFromAddress,
        p2wshAddrToOutput, hdec, hl]
    · simp [scriptPubkeyToAddress, hnw, p2wshOutputToHash_script h hl, henc]
  | cashaddrP2PKH =>
    obtain ⟨h, hl, hdec, henc⟩ := hva
    refine ⟨p2pkhScript h, ?_, ?_⟩
    · simp [addressToScriptPubkey, hnw, guessAddressTypeFromAddress, hdec,
        scriptHashToScriptPubkey, hl]
    · cases netEnum with
      | mainnet =>
        simp [cashaddrNetworkOf] at henc
        simp [scriptPubkeyToAddress, hnw, scriptPubkeyToScriptHash,
          p2pkhOutputToHash_script h hl, henc]
      | testnet =>
        simp [cashaddrNetworkOf] at henc
        simp [scriptPubkeyToAddress, hnw, scriptPubkeyToScriptHash,
          p2pkhOutputToHash_script h hl, henc]
  | cashaddrP2SH =>
    obtain ⟨h, hl, hdec, henc⟩ := hva
    refine ⟨p2shScript h, ?_, ?_⟩
    · simp [addressToScriptPubkey, hnw, guessAddressTypeFromAddress, hdec,
        scriptHashToScriptPubkey, hl]
    · cases netEnum with
      | mainnet =>
        simp [cashaddrNetworkOf] at henc
        simp [scriptPubkeyToAddress, hnw, scriptPubkeyToScriptHash,
          p2shOutputToHash_script h hl, henc]
      | testnet =>
        simp [cashaddrNetworkOf] at henc
        simp [scriptPubkeyToAddress, hnw, scriptPubkeyToScriptHash,
          p2shOutputToHash_script h hl, henc]

/-- C6 counterexample: "S" is a perfectly well-formed script-hash address
for the toy coin (it decodes to a 20-byte hash under the coin's script-hash
version byte and re-encodes to itself), which is exactly the text form a
`p2wshp2sh` address uses - yet `addressToScriptPubkey` rejects the
`p2wshp2sh` address type outright, so the claimed round trip fails for that
type. -/
theorem address_script_round_trip_cex :
    toyB58.dec "S" = some (toyNetwork.scriptHash, testHash20)
    ∧ toyB58.enc toyNetwork.scriptHash testHash20 = "S"
    ∧ addressToScriptPubkey toyCodecs toyGetCoin
        { address := "S", network := NetworkEnum.mainnet,
          addressType := some AddressTypeEnum.p2wshp2sh, coin := "toy" } =
      .error "invalid address type in address to script pubkey" :=
  ⟨rfl, rfl, rfl⟩

theorem address_script_round_trip_witness :
    ∃ s, addressToScriptPubkey toyCodecs toyGetCoin
        { address := "P", network := NetworkEnum.mainnet,
          addressType := some AddressTypeEnum.p2pkh, coin := "toy" } = .ok s
      ∧ scriptPubkeyToAddress toyCodecs toyGetCoin
          { scriptPubkey := s, addressType := AddressTypeEnum.p2pkh,
            network := NetworkEnum.mainnet, coin := "toy" } = .ok "P" :=
  address_script_round_trip toyCodecs toyGetCoin NetworkEnum.mainnet "toy"
    AddressTypeEnum.p2pkh "P" toyNetwork (by simp) rfl
    ⟨testHash20, rfl, rfl, rfl⟩

/-- A derivation path record as stored on a fetched address; only its
`format` field is consumed by `toEdgeTransaction`. -/
structure AddressPath where
  format : String
  deriving DecidableEq, Repr

/-- An address record returned by `processor.fetchAddress`. -/
structure AddressData where
  path : Option AddressPath
  deriving DecidableEq, Repr

/-- One output record of an `IProcessorTransaction`. -/
structure TxOutRec where
  amount : String
  scriptPubkey : String
  deriving DecidableEq, Repr

/-- `IProcessorTransaction` (db/types) as consumed by `toEdgeTransaction`:
`ourOuts` index strings are modelled as the parsed numbers, `fees` (a
base-10 string in the source, parsed with `new BN(tx.fees, 10)`) as the
parsed natural number. -/
structure IProcessorTransaction where
  txid : String
  hex : String
  blockHeight : Int
  date : Nat
  fees : Nat
  outputs : List TxOutRec
  ourOuts : List Nat
  ourAmount : String
  deriving DecidableEq, Repr

/-- The `feeRateUsed` record attached to an `EdgeTransaction`. -/
structure FeeRateUsed where
  satPerVByte : Nat
  deriving DecidableEq, Repr

/-- The `EdgeTransaction` record produced by `toEdgeTransaction`; only the
fields the function populates. -/
structure EdgeTransaction where
  currencyCode : String
  txid : String
  blockHeight : Int
  date : Nat
  nativeAmount : String
  networkFee : Nat
  signedTx : String
  ourReceiveAddresses : List String
  feeRateUsed : Option FeeRateUsed
  deriving DecidableEq, Repr

/-- A transaction parsed by the altcoin-js collaborator: its serialized
length without witness data (`baseSize`) and with it (`totalSize`). -/
structure ParsedTx where
  baseSize : Nat
  totalSize : Nat
  deriving DecidableEq, Repr

/-- BIP141 weight as altcoin-js computes it: `base * 3 + total`. -/
def txWeight (t : ParsedTx) : Nat := t.baseSize * 3 + t.totalSize

/-- altcoin-js `Transaction.virtualSize()`: `ceil(weight / 4)`. -/
def txVirtualSize (t : ParsedTx) : Nat := (txWeight t + 3) / 4

/-- The replay-protection format override of `toEdgeTransaction`
(ProcessorTransaction.ts lines 81-88): when a replay-protection script
template is configured and the fetched address has a path matching it, the
path's format is overwritten with `bip49`.

Modelled from the spec: the matching predicate
`isPathUsingDerivationLevelScriptHash` is imported from keymanager.ts but
absent from the excerpt ("a function which can determine whether the
derivationLevelScriptHash was used for the path's change index"); it is kept
as the abstract boolean parameter `rp`, and the script-template
configuration value as an opaque `String`. -/
def replayAdjustedPath (rp : String → AddressPath → Bool)
    (scriptTemplate : Option String) (address : Option AddressData) :
    Option AddressData :=
  match scriptTemplate, address with
  | some st, some a =>
    match a.path with
    | some p => if rp st p then some { path := some { p with format := "bip49" } }
                else some a
    | none => some a
  | _, _ => address

/-- The `ourReceiveAddresses` loop of `toEdgeTransaction`
(ProcessorTransaction.ts lines 66-97): for each own output index, fetch the
address for its locking script, apply the replay-protection format
override, and render the address with the (possibly overridden) format;
outputs without a fetched path are skipped.  An out-of-range output index
faults (the source dereferences `undefined`). -/
def ourAddressLoop (fetchAddress : String → Option AddressData)
    (s2a : String → String → String) (rp : String → AddressPath → Bool)
    (scriptTemplate : Option String) (outputs : List TxOutRec) :
    List Nat → Except String (List String)
  | [] => .ok []
  | o :: rest =>
    match outputs[o]? with
    | none => .error "Invalid transaction data"
    | some orec =>
      match replayAdjustedPath rp scriptTemplate (fetchAddress orec.scriptPubkey) with
      | some a =>
        match a.path with
        | some p =>
          match ourAddressLoop fetchAddress s2a rp scriptTemplate outputs rest with
          | .error e => .error e
          | .ok tail => .ok (s2a orec.scriptPubkey p.format :: tail)
        | none => ourAddressLoop fetchAddress s2a rp scriptTemplate outputs rest
      | none => ourAddressLoop fetchAddress s2a rp scriptTemplate outputs rest

/-- `toEdgeTransaction` from ProcessorTransaction.ts (lines 61-127).  The
fee-rate block models its try/catch: `Transaction.fromHex` may throw
(`parseHex` returns `none`), `BN.div` floors and throws on division by
zero, and `BN.toNumber` throws above `2^53 - 1`; any of these failures
leaves `feeRateUsed` unset.  `walletTools.scriptPubkeyToAddress` is the
parameter `s2a` (locking script, format) -> address text. -/
def toEdgeTransaction (parseHex : String → Option ParsedTx)
    (fetchAddress : String → Option AddressData)
    (s2a : String → String → String) (rp : String → AddressPath → Bool)
    (scriptTemplate : Option String) (currencyCode : String)
    (tx : IProcessorTransaction) : Except String EdgeTransaction :=
  match ourAddressLoop fetchAddress s2a rp scriptTemplate tx.outputs tx.ourOuts with
  | .error e => .error e
  | .ok ourReceiveAddresses =>
    let feeRes : Option FeeRateUsed :=
      match parseHex tx.hex with
      | some pt =>
        let vB := txVirtualSize pt
        if vB = 0 then none
        else if tx.fees / vB ≤ 2 ^ 53 - 1 then some { satPerVByte := tx.fees / vB }
        else none
      | none => none
    .ok { currencyCode := currencyCode, txid := tx.txid,
          blockHeight := tx.blockHeight, date := tx.date,
          nativeAmount := tx.ourAmount, networkFee := tx.fees,
          signedTx := tx.hex, ourReceiveAddresses := ourReceiveAddresses,
          feeRateUsed := feeRes }

/-- C7: in `toEdgeTransaction`, an own output whose fetched address path
matches the configured replay-protection script template (per the abstract
`isPathUsingDerivationLevelScriptHash` predicate `rp`) is rendered with the
`bip49` format; a non-matching output keeps its path's own format.  The
second conjunct ties the rendering loop to `toEdgeTransaction`'s
`ourReceiveAddresses` field. -/
theorem toEdgeTransaction_replay_protection_format
    (fetchAddress : String → Option AddressData) (s2a : String → String → String)
    (rp : String → AddressPath → Bool) (st : String) (outputs : List TxOutRec)
    (o : Nat) (rest : List Nat) (orec : TxOutRec) (p : AddressPath)
    (l : List String)
    (hrec : outputs[o]? = some orec)
    (hf : fetchAddress orec.scriptPubkey = some { path := some p })
    (hl : ourAddressLoop fetchAddress s2a rp (some st) outputs (o :: rest) = .ok l) :
    (∃ tail, ourAddressLoop fetchAddress s2a rp (some st) outputs rest = .ok tail ∧
      l = s2a orec.scriptPubkey (if rp st p then "bip49" else p.format) :: tail)
    ∧ (∀ (parseHex : String → Option ParsedTx) (cc : String)
        (tx : IProcessorTransaction) (e : EdgeTransaction),
        toEdgeTransaction parseHex fetchAddress s2a rp (some st) cc tx = .ok e →
        ourAddressLoop fetchAddress s2a rp (some st) tx.outputs tx.ourOuts =
          .ok e.ourReceiveAddresses) := by
  constructor
  · cases hrp : rp st p with
    | true =>
      cases hrest : ourAddressLoop fetchAddress s2a rp (some st) outputs rest with
      | error e =>
        exfalso
        simp [ourAddressLoop, hrec, hf, replayAdjustedPath, hrp, hrest] at hl
      | ok tail =>
        refine ⟨tail, rfl, ?_⟩
        simp [ourAddressLoop, hrec, hf, replayAdjustedPath, hrp, hrest] at hl
        subst hl
        simp [hrp]
    | false =>
      cases hrest : ourAddressLoop fetchAddress s2a rp (some st) outputs rest with
      | error e =>
        exfalso
        simp [ourAddressLoop, hrec, hf, replayAdjustedPath, hrp, hrest] at hl
      | ok tail =>
        refine ⟨tail, rfl, ?_⟩
        simp [ourAddressLoop, hrec, hf, replayAdjustedPath, hrp, hrest] at hl
        subst hl
        simp [hrp]
  · intro parseHex cc tx e he
    simp only [toEdgeTransaction] at he
    cases hloop : ourAddressLoop fetchAddress s2a rp (some st) tx.outputs tx.ourOuts with
    | error e2 => rw [hloop] at he; exact absurd he (by simp)
    | ok l2 =>
      rw [hloop] at he
      injection he with he
      subst he
      rfl

/-- Path fixture with the legacy (`bip44`) display format. -/
def c7Path : AddressPath := { format := "bip44" }

/-- Address-store fixture knowing exactly the script `spk0`. -/
def c7Fetch : String → Option AddressData := fun s =>
  if s = "spk0" then some { path := some c7Path } else none

/-- Rendering fixture: address text is script plus format. -/
def c7S2A : String → String → String := fun spk fmt => spk ++ ":" ++ fmt

/-- Replay-protection predicate fixture: matches the `replay` template with
a `bip44` path. -/
def c7RP : String → AddressPath → Bool := fun st p =>
  st == "replay" && p.format == "bip44"

/-- Single-output transaction output list fixture. -/
def c7OutRec : TxOutRec := { amount := "5", scriptPubkey := "spk0" }

/-- Output list fixture. -/
def c7Outs : List TxOutRec := [c7OutRec]

theorem toEdgeTransaction_replay_protection_format_witness :
    ∃ tail, ourAddressLoop c7Fetch c7S2A c7RP (some "replay") c7Outs [] = .ok tail ∧
      (["spk0:bip49"] : List String) = c7S2A "spk0" "bip49" :: tail := by
  have h := (toEdgeTransaction_replay_protection_format c7Fetch c7S2A c7RP "replay"
    c7Outs 0 [] c7OutRec c7Path ["spk0:bip49"] rfl rfl rfl).1
  have hrp : c7RP "replay" c7Path = true := rfl
  simpa [hrp] using h

/-- C8 (amended): when the stored hex parses, `toEdgeTransaction` reports
`feeRateUsed.satPerVByte` as the floor of `tx.fees` divided by the parsed
transaction's VIRTUAL size `ceil(weight / 4)` (not by the weight itself),
whenever that divisor is nonzero and the quotient fits the 53-bit bound of
`BN.toNumber`. -/
theorem toEdgeTransaction_feeRate (parseHex : String → Option ParsedTx)
    (fetchAddress : String → Option AddressData) (s2a : String → String → String)
    (rp : String → AddressPath → Bool) (st : Option String) (cc : String)
    (tx : IProcessorTransaction) (pt : ParsedTx) (e : EdgeTransaction)
    (hp : parseHex tx.hex = some pt) (hv : txVirtualSize pt ≠ 0)
    (hb : tx.fees / txVirtualSize pt ≤ 2 ^ 53 - 1)
    (he : toEdgeTransaction parseHex fetchAddress s2a rp st cc tx = .ok e) :
    e.feeRateUsed = some { satPerVByte := tx.fees / txVirtualSize pt }
    ∧ txVirtualSize pt = (txWeight pt + 3) / 4 := by
  refine ⟨?_, rfl⟩
  simp only [toEdgeTransaction] at he
  cases hloop : ourAddressLoop fetchAddress s2a rp st tx.outputs tx.ourOuts with
  | error e2 => rw [hloop] at he; exact absurd he (by simp)
  | ok l =>
    rw [hloop] at he
    injection he with he
    subst he
    have hb2 : tx.fees / txVirtualSize pt ≤ 9007199254740991 := hb
    simp [hp, hv, hb2]

/-- Parser fixture: the hex `deadbeef` parses to base size 60, total size
100 (weight 280, virtual size 70). -/
def c8Parse : String → Option ParsedTx := fun s =>
  if s = "deadbeef" then some { baseSize := 60, totalSize := 100 } else none

/-- Address-store fixture knowing no scripts. -/
def c8NoAddr : String → Option AddressData := fun _ => none

/-- Rendering fixture. -/
def c8S2A : String → String → String := fun _ _ => "addr"

/-- Replay predicate fixture matching nothing. -/
def c8RP : String → AddressPath → Bool := fun _ _ => false

/-- Stored transaction fixture: fee 560 over the `deadbeef` hex. -/
def c8Tx : IProcessorTransaction :=
  { txid := "t", hex := "deadbeef", blockHeight := 10, date := 0, fees := 560,
    outputs := [], ourOuts := [], ourAmount := "-560" }

/-- The parse result of `deadbeef` under `c8Parse`. -/
def c8Parsed : ParsedTx := { baseSize := 60, totalSize := 100 }

/-- The EdgeTransaction `toEdgeTransaction` produces for `c8Tx`. -/
def c8Edge : EdgeTransaction :=
  { currencyCode := "BTC", txid := "t", blockHeight := 10, date := 0,
    nativeAmount := "-560", networkFee := 560, signedTx := "deadbeef",
    ourReceiveAddresses := [], feeRateUsed := some { satPerVByte := 8 } }

/-- C8 counterexample: for the parsed fixture the code reports
`560 / 70 = 8` sat/vbyte (division by the virtual size), while division by
the serialized weight 280 would give 2. -/
theorem toEdgeTransaction_feeRate_cex :
    toEdgeTransaction c8Parse c8NoAddr c8S2A c8RP none "BTC" c8Tx = .ok c8Edge
    ∧ c8Edge.feeRateUsed = some { satPerVByte := 8 }
    ∧ txWeight c8Parsed = 280 ∧ txVirtualSize c8Parsed = 70
    ∧ c8Tx.fees / txWeight c8Parsed = 2 ∧ (8 : Nat) ≠ 2 :=
  ⟨rfl, rfl, rfl, rfl, rfl, by decide⟩

theorem toEdgeTransaction_feeRate_witness :
    c8Edge.feeRateUsed = some { satPerVByte := c8Tx.fees / txVirtualSize c8Parsed } :=
  (toEdgeTransaction_feeRate c8Parse c8NoAddr c8S2A c8RP none "BTC" c8Tx
    c8Parsed c8Edge rfl (by decide) (by decide) rfl).1

/-- C10: the fee-rate block never makes `toEdgeTransaction` fail: replacing
the transaction parser by one that always throws changes nothing but the
omitted `feeRateUsed` field, and every other returned field is the same
function of the stored transaction in both cases. -/
theorem toEdgeTransaction_fee_errors_swallowed (parseHex : String → Option ParsedTx)
    (fetchAddress : String → Option AddressData) (s2a : String → String → String)
    (rp : String → AddressPath → Bool) (st : Option String) (cc : String)
    (tx : IProcessorTransaction) :
    ((toEdgeTransaction parseHex fetchAddress s2a rp st cc tx).map
        (fun e => { e with feeRateUsed := none }) =
      toEdgeTransaction (fun _ => none) fetchAddress s2a rp st cc tx)
    ∧ (∀ e, toEdgeTransaction parseHex fetchAddress s2a rp st cc tx = .ok e →
        e.txid = tx.txid ∧ e.blockHeight = tx.blockHeight ∧ e.date = tx.date ∧
        e.nativeAmount = tx.ourAmount ∧ e.networkFee = tx.fees ∧
        e.signedTx = tx.hex ∧ e.currencyCode = cc) := by
  constructor
  · simp only [toEdgeTransaction]
    cases hloop : ourAddressLoop fetchAddress s2a rp st tx.outputs tx.ourOuts <;>
      simp [hloop, Except.map]
  · intro e he
    simp only [toEdgeTransaction] at he
    cases hloop : ourAddressLoop fetchAddress s2a rp st tx.outputs tx.ourOuts with
    | error e2 => rw [hloop] at he; exact absurd he (by simp)
    | ok l =>
      rw [hloop] at he
      injection he with he
      subst he
      exact ⟨rfl, rfl, rfl, rfl, rfl, rfl, rfl⟩

theorem toEdgeTransaction_fee_errors_swallowed_witness :
    c8Edge.txid = c8Tx.txid ∧ c8Edge.networkFee = c8Tx.fees := by
  have h := (toEdgeTransaction_fee_errors_swallowed c8Parse c8NoAddr c8S2A c8RP
    none "BTC" c8Tx).2 c8Edge rfl
  exact ⟨h.1, h.2.2.2.2.1⟩

/-- One PSBT input as seen by `signTx`: the input's committed data (opaque)
plus the attached partial signature, if any. -/
structure PsbtSignInput where
  data : String
  sig : Option String
  deriving DecidableEq, Repr

/-- The signing loop of `signTx` (keymanager.ts lines 708-716): key `i`
signs and validates input `i`, in increasing order.  bitcoinjs
`psbt.signInput(i, key)` throws when input `i` does not exist or the key
cannot sign it, and `validateSignaturesOfInput(i)` throws on an invalid
signature; the oracle `signOk` merges the two, returning the signature
exactly when the key validly signs the input. -/
def signAllInputs (signOk : String → String → Option String) :
    List PsbtSignInput → List String → Except String (List PsbtSignInput)
  | inps, [] => .ok inps
  | [], _ :: _ => .error "No input"
  | inp :: inps, k :: ks =>
    match signOk inp.data k with
    | none => .error "sign or validate failed"
    | some sg =>
      match signAllInputs signOk inps ks with
      | .error e => .error e
      | .ok rest => .ok ({ inp with sig := some sg } :: rest)

/-- bitcoinjs `psbt.finalizeAllInputs()`: fails unless every input carries
its signature. -/
def finalizeAllInputs : List PsbtSignInput → Except String (List PsbtSignInput)
  | [] => .ok []
  | inp :: rest =>
    match inp.sig with
    | none => .error "Can not finalize input"
    | some _ =>
      match finalizeAllInputs rest with
      | .error e => .error e
      | .ok r => .ok (inp :: r)

/-- `signTx` from keymanager.ts (lines 706-719): positional signing pass,
then finalization of all inputs (extraction of the finished transaction is
the identity on the finalized state here). -/
def signTx (signOk : String → String → Option String)
    (psbt : List PsbtSignInput) (privateKeys : List String) :
    Except String (List PsbtSignInput) :=
  match signAllInputs signOk psbt privateKeys with
  | .error e => .error e
  | .ok signed => finalizeAllInputs signed

theorem signTx_isOk_char (signOk : String → String → Option String) :
    ∀ (psbt : List PsbtSignInput) (keys : List String),
      (∀ inp ∈ psbt, inp.sig = none) →
      (signTx signOk psbt keys).isOk =
        (decide (keys.length = psbt.length) &&
          (psbt.zip keys).all fun pr => (signOk pr.1.data pr.2).isSome) := by
  intro psbt
  induction psbt with
  | nil =>
    intro keys hinit
    cases keys with
    | nil => rfl
    | cons k ks => rfl
  | cons inp inps ih =>
    intro keys hinit
    cases keys with
    | nil =>
      have h0 : inp.sig = none := hinit inp (List.mem_cons_self inp inps)
      simp [signTx, signAllInputs, finalizeAllInputs, h0, Except.isOk, Except.toBool]
    | cons k ks =>
      cases hs : signOk inp.data k with
      | none =>
        simp [signTx, signAllInputs, hs, Except.isOk, Except.toBool]
      | some sg =>
        have htail := ih ks (fun i hi => hinit i (List.mem_cons_of_mem inp hi))
        cases hsa : signAllInputs signOk inps ks with
        | error e =>
          have : (signTx signOk inps ks).isOk = false := by
            simp [signTx, hsa, Except.isOk, Except.toBool]
          rw [this] at htail
          simp [signTx, signAllInputs, hs, hsa, Except.isOk, Except.toBool, hs,
            ← htail]
        | ok rest =>
          have hstep : signTx signOk (inp :: inps) (k :: ks) =
              finalizeAllInputs ({ inp with sig := some sg } :: rest) := by
            simp [signTx, signAllInputs, hs, hsa]
          have hfin : finalizeAllInputs ({ inp with sig := some sg } :: rest) =
              (match finalizeAllInputs rest with
                | .error e => .error e
                | .ok r => .ok (({ inp with sig := some sg } : PsbtSignInput) :: r)) := by
            simp [finalizeAllInputs]
          have htx : signTx signOk inps ks = finalizeAllInputs rest := by
            simp [signTx, hsa]
          rw [hstep, hfin]
          rw [htx] at htail
          cases hf : finalizeAllInputs rest with
          | error e =>
            rw [hf] at htail
            simp [Except.isOk, Except.toBool, hs] at htail ⊢
            exact htail
          | ok r =>
            rw [hf] at htail
            simp [Except.isOk, Except.toBool, hs] at htail ⊢
            exact htail

theorem signAllInputs_ok_eq (signOk : String → String → Option String) :
    ∀ (psbt : List PsbtSignInput) (keys : List String) (out : List PsbtSignInput),
      signAllInputs signOk psbt keys = .ok out →
      out = psbt.zipWith (fun inp k => { inp with sig := signOk inp.data k }) keys
        ++ psbt.drop keys.length := by
  intro psbt
  induction psbt with
  | nil =>
    intro keys out h
    cases keys with
    | nil => simp [signAllInputs] at h; simp [← h]
    | cons k ks => simp [signAllInputs] at h
  | cons inp inps ih =>
    intro keys out h
    cases keys with
    | nil => simp [signAllInputs] at h; simp [← h]
    | cons k ks =>
      cases hs : signOk inp.data k with
      | none => simp [signAllInputs, hs] at h
      | some sg =>
        cases hsa : signAllInputs signOk inps ks with
        | error e => simp [signAllInputs, hs, hsa] at h
        | ok rest =>
          simp [signAllInputs, hs, hsa] at h
          subst h
          have := ih ks rest hsa
          subst this
          simp [hs]

theorem finalizeAllInputs_ok_eq :
    ∀ (l out : List PsbtSignInput), finalizeAllInputs l = .ok out → out = l := by
  intro l
  induction l with
  | nil => intro out h; simp [finalizeAllInputs] at h; simp [← h]
  | cons inp rest ih =>
    intro out h
    cases hs : inp.sig with
    | none => simp [finalizeAllInputs, hs] at h
    | some sg =>
      cases hf : finalizeAllInputs rest with
      | error e => simp [finalizeAllInputs, hs, hf] at h
      | ok r =>
        simp [finalizeAllInputs, hs, hf] at h
        subst h
        rw [ih r hf]

/-- C9: `signTx` pairs keys to inputs positionally.  On an initially
unsigned PSBT it succeeds exactly when there are as many keys as inputs and
each key validly signs its same-position input (so fewer keys than inputs -
unsigned remainder - always fails finalization), and on success the result
is each input signed with its positional key, in order. -/
theorem signTx_positional_pairing (signOk : String → String → Option String)
    (psbt : List PsbtSignInput) (keys : List String)
    (hinit : ∀ inp ∈ psbt, inp.sig = none) :
    ((signTx signOk psbt keys).isOk = true ↔
      keys.length = psbt.length ∧
        ∀ pr ∈ psbt.zip keys, (signOk pr.1.data pr.2).isSome = true)
    ∧ (keys.length < psbt.length → (signTx signOk psbt keys).isOk = false)
    ∧ (∀ out, signTx signOk psbt keys = .ok out →
        out = psbt.zipWith (fun inp k => { inp with sig := signOk inp.data k }) keys) := by
  have hchar := signTx_isOk_char signOk psbt keys hinit
  refine ⟨?_, ?_, ?_⟩
  · rw [hchar]
    simp [List.all_eq_true]
  · intro hlt
    rw [hchar]
    simp
    intro heq
    omega
  · intro out h
    have hok : (signTx signOk psbt keys).isOk = true := by
      simp [h, Except.isOk, Except.toBool]
    rw [hchar] at hok
    simp [List.all_eq_true] at hok
    obtain ⟨hlen, _⟩ := hok
    unfold signTx at h
    cases hsa : signAllInputs signOk psbt keys with
    | error e => rw [hsa] at h; exact absurd h (by simp)
    | ok signed =>
      rw [hsa] at h
      have h1 := finalizeAllInputs_ok_eq signed out h
      have h2 := signAllInputs_ok_eq signOk psbt keys signed hsa
      rw [h1, h2, hlen]
      simp [List.drop_length]

/-- Two-input unsigned PSBT fixture. -/
def c9Psbt : List PsbtSignInput :=
  [{ data := "i0", sig := none }, { data := "i1", sig := none }]

/-- Signing oracle fixture: key `k0` signs input `i0`, key `k1` signs
input `i1`, nothing else validates. -/
def c9SignOk : String → String → Option String := fun d k =>
  if d = "i0" ∧ k = "k0" then some "s0"
  else if d = "i1" ∧ k = "k1" then some "s1"
  else none

theorem signTx_positional_pairing_witness :
    (signTx c9SignOk c9Psbt ["k0", "k1"]).isOk = true ∧
      (signTx c9SignOk c9Psbt ["k0"]).isOk = false :=
  ⟨(signTx_positional_pairing c9SignOk c9Psbt ["k0", "k1"] (by decide)).1.mpr
      ⟨rfl, by decide⟩,
   (signTx_positional_pairing c9SignOk c9Psbt ["k0"] (by decide)).2.1 (by decide)⟩

end EdgePlugins
